import Mathlib

/-!
Verification development for `micro_agent_push.py`, a single-file periodic
commit agent.  The Python source is shallowly embedded below: pure helpers
become Lean functions, external effects (random draws, timestamps, git
command exit statuses, file contents, the SIGINT stop flag) become explicit
parameters, and fallible code returns `Except`.
-/

/-- The left curly-brace character, written via an escape. -/
def lbrace : Char := '\x7b'

/-- The right curly-brace character, written via an escape. -/
def rbrace : Char := '\x7d'

/-- Scanner state for the embedding of Python `str.format`:
either ordinary text, just after a lone left or right brace, or inside a
replacement field whose name so far is `acc` (reversed). -/
inductive FmtMode where
  | normal : FmtMode
  | afterL : FmtMode
  | afterR : FmtMode
  | inField : List Char → FmtMode

/-- Embedding of Python `templ.format(ts=...)` restricted to simple named
fields, which is the template language this program uses: `\x7b\x7b` and
`\x7d\x7d` are literal braces, `\x7bts\x7d` is replaced by `ts`, any other
field name raises (KeyError / IndexError), and unbalanced braces raise
(ValueError).  Errors are represented as `Except.error` with a message. -/
def fmtGo (ts : List Char) : FmtMode → List Char → Except String (List Char)
  | FmtMode.normal, [] => Except.ok []
  | FmtMode.afterL, [] => Except.error "ValueError: single left brace"
  | FmtMode.afterR, [] => Except.error "ValueError: single right brace"
  | FmtMode.inField _, [] => Except.error "ValueError: expected closing brace"
  | FmtMode.normal, c :: rest =>
      if c = lbrace then fmtGo ts FmtMode.afterL rest
      else if c = rbrace then fmtGo ts FmtMode.afterR rest
      else (fmtGo ts FmtMode.normal rest).map (fun r => c :: r)
  | FmtMode.afterL, c :: rest =>
      if c = lbrace then (fmtGo ts FmtMode.normal rest).map (fun r => lbrace :: r)
      else if c = rbrace then Except.error "IndexError: replacement index out of range"
      else fmtGo ts (FmtMode.inField [c]) rest
  | FmtMode.afterR, c :: rest =>
      if c = rbrace then (fmtGo ts FmtMode.normal rest).map (fun r => rbrace :: r)
      else Except.error "ValueError: single right brace"
  | FmtMode.inField acc, c :: rest =>
      if c = rbrace then
        if acc.reverse = ['t', 's'] then (fmtGo ts FmtMode.normal rest).map (fun r => ts ++ r)
        else Except.error ("KeyError: " ++ String.mk acc.reverse)
      else fmtGo ts (FmtMode.inField (c :: acc)) rest

/-- `pyFormat templ ts` embeds `templ.format(ts=ts)`. -/
def pyFormat (templ ts : String) : Except String String :=
  (fmtGo ts.toList FmtMode.normal templ.toList).map (fun cs => String.mk cs)

/-- The built-in template pool `DEFAULT_TEMPLATES` from the source. -/
def DEFAULT_TEMPLATES : List String :=
  [ "TODO: Add a short example for the API (created \x7bts\x7d).",
    "NOTE: Quick optimization idea documented — revisit later (\x7bts\x7d).",
    "DOC: Minor README tweak suggested (\x7bts\x7d).",
    "TASK: Write unit test for recently added util function (\x7bts\x7d).",
    "LOG: Small refactor done locally; details in code comments (\x7bts\x7d).",
    "CHORE: Update dependency checklist in docs (\x7bts\x7d).",
    "IDEA: Possible feature — add bulk import endpoint (\x7bts\x7d)." ]

/-- Embedding of `generate_entry(template_pool, prefix)`.  The random
`random.choice` draw is made explicit as an index `k` into the pool and the
`datetime.utcnow().strftime(...)` timestamp as the string `ts`.  A `pre` of
`none` models `prefix=None`; `some ""` is falsy in Python, so it also takes
the default bullet branch. -/
def generate_entry (pool : List String) (k : ℕ) (ts : String) (pre : Option String) :
    Except String String :=
  match pool[k]? with
  | none => Except.error "IndexError: cannot choose from an empty sequence"
  | some templ =>
      (pyFormat templ ts).map (fun line =>
        match pre with
        | some p => if p ≠ "" then p ++ " " ++ line ++ "\n" else "- " ++ line ++ "\n"
        | none => "- " ++ line ++ "\n")

/-- Embedding of `append_entry(path, entry)`: the file content is threaded
explicitly; `entry` is written, then a newline when `entry` does not already
end in one (`entry.endswith("\n")` is read off the last character). -/
def append_entry (file : String) (entry : String) : String :=
  if entry.toList.getLast? = some '\n' then file ++ entry
  else file ++ entry ++ "\n"

/-- Embedding of the jitter amount `jitter = base * 0.2` (line 167). -/
def jitterAmount (base : ℤ) : ℚ := (base : ℚ) * (2 / 10)

/-- Embedding of the delay computation of lines 164-171: with `--randomize`,
`delay = max(10, base + u)` where `u` is the value drawn by
`rng.uniform(-jitter, jitter)`; otherwise `delay = base`. -/
def effectiveDelay (base : ℤ) (randomize : Bool) (u : ℚ) : ℚ :=
  if randomize then max 10 ((base : ℚ) + u) else (base : ℚ)

/-- `endsWithOneNewline s` holds when `s` ends in exactly one newline
character: its last character is a newline and the one before (if any)
is not. -/
def endsWithOneNewline (s : String) : Bool :=
  match s.toList.reverse with
  | [] => false
  | c :: rest =>
      (c == '\n') && (match rest with
        | [] => true
        | d :: _ => d != '\n')

/-- Embedding of the interruptible wait of lines 193-197.  `stop i` is the
value of `stop_signal_received` observed at the `i`-th check of the while
condition; `slept` starts at `0` and grows by `1.0` per iteration, so it is
carried as a natural number.  The returned list holds the durations passed
to `time.sleep`, in order. -/
def waitSleeps (delay : ℚ) (stop : ℕ → Bool) (slept : ℕ) : List ℚ :=
  if h : (slept : ℚ) < delay ∧ stop slept = false then
    min 1 (delay - slept) :: waitSleeps delay stop (slept + 1)
  else []
termination_by (⌈delay⌉).toNat - slept
decreasing_by
  have h1 : ((slept : ℤ) : ℚ) < delay := by exact_mod_cast h.1
  have h2 : (slept : ℤ) < ⌈delay⌉ := Int.lt_ceil.mpr h1
  have h3 : slept < (⌈delay⌉).toNat := by omega
  omega

/-- Embedding of the error backoff of lines 202-205: `for _ in range(n)`,
breaking as soon as the stop flag is observed, sleeping one second
otherwise.  `i` indexes the successive flag checks. -/
def backoffSleeps (stop : ℕ → Bool) : ℕ → ℕ → List ℚ
  | 0, _ => []
  | n + 1, i => if stop i then [] else 1 :: backoffSleeps stop n (i + 1)

/-- Embedding of `git_stage_and_commit`: `run_cmd` raises `RuntimeError` on a
non-zero exit status, and the `except RuntimeError` clause turns any such
failure (including git's "nothing to commit" non-zero exit) into `False`.
`addOk` and `commitOk` are the success bits of the two git commands. -/
def git_stage_and_commit (addOk : Bool) (commitOk : Bool) : Bool :=
  addOk && commitOk

/-- Embedding of `git_push`: `True` exactly when the `git push` subprocess
exits with status zero. -/
def git_push (pushOk : Bool) : Bool := pushOk

/-- The commit message of line 178: `f"{args.message} — {ts}"`. -/
def commitMessage (message ts : String) : String := message ++ " — " ++ ts

/-- Observable outcome of one cycle's work phase (lines 173-191) when no
exception escapes it. -/
structure WorkOut where
  file : String
  committed : Bool
  pushAttempted : Bool
  pushed : Option Bool
  report : String

/-- Embedding of the work phase of one loop iteration (lines 173-191):
generate the entry, append it to the target file, try to stage-and-commit,
and push only when the commit succeeded and the push flag is set.  Failure
of `generate_entry` propagates as an exception; git outcomes are the
booleans produced by `git_stage_and_commit` / `git_push`. -/
def workPhase (pool : List String) (k : ℕ) (ts : String) (pre : Option String)
    (addOk commitOk pushOk : Bool) (pushFlag : Bool) (file : String) :
    Except String WorkOut :=
  match generate_entry pool k ts pre with
  | Except.error e => Except.error e
  | Except.ok entry =>
      let file2 := append_entry file entry
      let committed := git_stage_and_commit addOk commitOk
      if committed then
        if pushFlag then
          Except.ok { file := file2, committed := true, pushAttempted := true,
                      pushed := some (git_push pushOk), report := "Committed" }
        else
          Except.ok { file := file2, committed := true, pushAttempted := false,
                      pushed := none, report := "Committed" }
      else
        Except.ok { file := file2, committed := false, pushAttempted := false,
                    pushed := none,
                    report := "No commit created (no change detected)." }

/-- Observable behaviour of one full iteration of the `while` loop
(lines 162-205): resulting file content, commit/push outcome, the error
line printed by the `except` clause (if any), the sleep durations
performed, and whether the loop proceeds to the next iteration. -/
structure IterResult where
  file : String
  committed : Bool
  pushAttempted : Bool
  pushed : Option Bool
  errorLogged : Option String
  sleeps : List ℚ
  continues : Bool

/-- Embedding of one iteration of the `try`/`except` loop body: a work phase
that completes is followed by the interruptible wait; a work phase that
raises is caught, logged as `Error in loop: ...`, and followed by the
five-step one-second backoff.  In both cases control returns to the `while`
condition (`continues = true`). -/
def loopIter (work : Except String WorkOut) (fileBefore : String) (delay : ℚ)
    (stop : ℕ → Bool) : IterResult :=
  match work with
  | Except.ok w =>
      { file := w.file, committed := w.committed, pushAttempted := w.pushAttempted,
        pushed := w.pushed, errorLogged := none,
        sleeps := waitSleeps delay stop 0, continues := true }
  | Except.error e =>
      { file := fileBefore, committed := false, pushAttempted := false, pushed := none,
        errorLogged := some ("Error in loop: " ++ e),
        sleeps := backoffSleeps stop 5 0, continues := true }

/-- Embedding of Python `str.strip()`: remove leading and trailing
whitespace characters. -/
def isPySpace (c : Char) : Bool :=
  c = ' ' || c = '\t' || c = '\n' || c = '\r' || c = '\x0b' || c = '\x0c'

/-- `pyStrip s` embeds `s.strip()`. -/
def pyStrip (s : String) : String :=
  String.mk (((s.toList.dropWhile isPySpace).reverse.dropWhile isPySpace).reverse)

/-- Embedding of the template-loading block of lines 118-127.  `tf` is
`none` when `--templates-file` was not given; otherwise it carries the
result of reading the file: `Except.error` when `open`/`readlines` raised,
`Except.ok raw` with the raw lines otherwise.  The second component records
whether the `Warning: could not load templates ...` line was printed. -/
def loadTemplates (tf : Option (Except String (List String))) : List String × Bool :=
  match tf with
  | none => (DEFAULT_TEMPLATES, false)
  | some (Except.error _) => (DEFAULT_TEMPLATES, true)
  | some (Except.ok raw) =>
      let lines := (raw.map pyStrip).filter (fun l => l ≠ "")
      (if lines ≠ [] then lines else DEFAULT_TEMPLATES, false)

/-- The header written to a freshly created target file (lines 131-136);
`textwrap.dedent` is the identity on this unindented string. -/
def HEADER : String :=
  "# Micro updates\n\nThis file collects tiny, useful notes and TODOs created automatically.\n\n"

/-- Embedding of the file-bootstrap step of lines 131-136: when the target
file does not exist it is created holding exactly `HEADER`; otherwise its
content is left untouched. -/
def initTargetFile (fileExists : Bool) (content : String) : String :=
  if fileExists then content else HEADER

/-- The Run Configuration (the parsed `args` of lines 98-108), immutable for
the process lifetime. -/
structure Config where
  repo : String
  file : String
  interval : ℤ
  push : Bool
  branch : Option String
  message : String
  randomize : Bool
  templatesFile : Option String
  pre : Option String
  noVerify : Bool
deriving DecidableEq

/-- The parser defaults of lines 98-107. -/
def defaultConfig : Config :=
  { repo := ".", file := "TODO.md", interval := 3600, push := true, branch := none,
    message := "chore: micro update", randomize := false, templatesFile := none,
    pre := none, noVerify := false }

/-- Decimal digit value of a character, `none` for non-digits. -/
def digitVal (c : Char) : Option ℕ :=
  if '0' ≤ c ∧ c ≤ '9' then some (c.toNat - Char.toNat '0') else none

/-- Parse a non-empty all-digit string left to right. -/
def parseDigitsAux : List Char → ℕ → Option ℕ
  | [], acc => some acc
  | c :: cs, acc =>
      match digitVal c with
      | none => none
      | some d => parseDigitsAux cs (acc * 10 + d)

/-- Embedding of `type=int` on `--interval`: Python `int(...)` parses an
optional minus sign followed by decimal digits, or raises `ValueError`
(`none`).  (The stdlib also strips whitespace and accepts `+` and
underscores; those cases are not exercised here.) -/
def parseIntervalValue (s : String) : Option ℤ :=
  match s.toList with
  | [] => none
  | c :: cs =>
      if c = '-' then
        match cs with
        | [] => none
        | _ => (parseDigitsAux cs 0).map (fun n => -(n : ℤ))
      else (parseDigitsAux (c :: cs) 0).map (fun n => (n : ℤ))

/-- Embedding of the startup validation of lines 113-144: exit non-zero when
the path is not a git repository; with a configured branch, try
`git checkout`, then `git checkout -b`, and let a second failure escape
(non-zero exit).  Nothing else about the configuration is validated. -/
def startupValidate (cfg : Config) (gitRepoOk : Bool) (checkoutOk : Bool)
    (createOk : Bool) : Except String Config :=
  if gitRepoOk = false then
    Except.error "Error: the provided path is not a git repository or git is not available."
  else
    match cfg.branch with
    | none => Except.ok cfg
    | some _ =>
        if checkoutOk then Except.ok cfg
        else if createOk then Except.ok cfg
        else Except.error "RuntimeError: Command failed: git checkout -b"

/-- The option strings registered on the `argparse` parser (lines 97-107),
together with the automatic help options.  Note that line 101 registers one
single literal option string spelling out both the push and the no-push
flag with a slash between them (the ninth element below). -/
def optionStrings : List String :=
  [ "-h", "--help", "--repo", "-r", "--file", "-f", "--interval", "-i",
    "--push/--no-push", "--branch", "-b", "--message", "-m", "--randomize",
    "--templates-file", "--prefix", "--no-verify" ]

/-- Whether a registered option string takes a value: `action="store_true"`
options and the help action do not; every other registered option (the
default `store` action) consumes one argument. -/
def takesValue (o : String) : Bool :=
  !(o = "--randomize" || o = "--no-verify" || o = "-h" || o = "--help")

/-- Embedding of `argparse`'s matching of a `--`-style argument against the
registered option strings: an exact match wins; otherwise every long option
string having the argument as a proper prefix is a candidate
(`allow_abbrev`).  An empty candidate list makes the argument
"unrecognized" (usage error, exit status 2). -/
def longOptionMatches (arg : String) : List String :=
  if optionStrings.contains arg then [arg]
  else optionStrings.filter
    (fun o => List.isPrefixOf ['-', '-'] o.toList && List.isPrefixOf arg.toList o.toList)

theorem waitSleeps_le_one (delay : ℚ) (stop : ℕ → Bool) (i : ℕ) :
    ∀ x ∈ waitSleeps delay stop i, x ≤ 1 := by
  induction i using waitSleeps.induct delay stop with
  | case1 i h ih =>
      rw [waitSleeps, dif_pos h]
      intro x hx
      rcases List.mem_cons.mp hx with h1 | h2
      · rw [h1]; exact min_le_left 1 _
      · exact ih x h2
  | case2 i h =>
      rw [waitSleeps, dif_neg h]
      intro x hx
      exact absurd hx (List.not_mem_nil x)

theorem waitSleeps_stop (delay : ℚ) (stop : ℕ → Bool) (j : ℕ) (hj : stop j = true) :
    ∀ i, i ≤ j → i + (waitSleeps delay stop i).length ≤ j := by
  intro i
  induction i using waitSleeps.induct delay stop with
  | case1 i h ih =>
      intro hij
      rw [waitSleeps, dif_pos h]
      have hne : i ≠ j := by
        intro he
        rw [he, hj] at h
        exact absurd h.2 (by simp)
      have hij2 : i + 1 ≤ j := by omega
      have := ih hij2
      simp only [List.length_cons]
      omega
  | case2 i h =>
      intro hij
      rw [waitSleeps, dif_neg h]
      simpa using hij

theorem backoffSleeps_length_le (stop : ℕ → Bool) :
    ∀ n i, (backoffSleeps stop n i).length ≤ n := by
  intro n
  induction n with
  | zero => intro i; simp [backoffSleeps]
  | succ n ih =>
      intro i
      rw [backoffSleeps]
      cases hs : stop i with
      | true => simp
      | false =>
          simp only [Bool.false_eq_true, if_false, List.length_cons]
          have := ih (i + 1)
          omega

theorem backoffSleeps_all_one (stop : ℕ → Bool) :
    ∀ n i, ∀ x ∈ backoffSleeps stop n i, x = 1 := by
  intro n
  induction n with
  | zero => intro i x hx; simp [backoffSleeps] at hx
  | succ n ih =>
      intro i x hx
      rw [backoffSleeps] at hx
      cases hs : stop i with
      | true => rw [hs] at hx; simp at hx
      | false =>
          rw [hs] at hx
          simp only [Bool.false_eq_true, if_false, List.mem_cons] at hx
          rcases hx with h1 | h2
          · exact h1
          · exact ih (i + 1) x h2

theorem backoffSleeps_stop (stop : ℕ → Bool) (j : ℕ) (hj : stop j = true) :
    ∀ n i, i ≤ j → i + (backoffSleeps stop n i).length ≤ j := by
  intro n
  induction n with
  | zero => intro i hij; simpa [backoffSleeps] using hij
  | succ n ih =>
      intro i hij
      rw [backoffSleeps]
      cases hs : stop i with
      | true => simpa using hij
      | false =>
          have hne : i ≠ j := by
            intro he; rw [he] at hs; rw [hs] at hj; exact Bool.false_ne_true hj
          have := ih (i + 1) (by omega)
          simp only [Bool.false_eq_true, if_false, List.length_cons]
          omega

/-- Claim C1 (amended): for every base interval `b > 0`, when jitter is
enabled and the drawn uniform offset lies in `[-0.2*b, 0.2*b]`, the
effective delay lies in `[max(10, 0.8*b), max(10, 1.2*b)]` — the clamp can
push the delay above `1.2*b` when the base is small, so the upper end of
the interval is also clamped at 10. -/
theorem claim_C1 (b : ℤ) (u : ℚ) (_hb : 0 < b)
    (h1 : -jitterAmount b ≤ u) (h2 : u ≤ jitterAmount b) :
    max 10 ((8 / 10) * (b : ℚ)) ≤ effectiveDelay b true u ∧
    effectiveDelay b true u ≤ max 10 ((12 / 10) * (b : ℚ)) := by
  have j1 : -((b : ℚ) * (2 / 10)) ≤ u := by simpa [jitterAmount] using h1
  have j2 : u ≤ (b : ℚ) * (2 / 10) := by simpa [jitterAmount] using h2
  simp only [effectiveDelay, if_true]
  constructor
  · exact max_le_max le_rfl (by linarith)
  · exact max_le_max le_rfl (by linarith)

theorem claim_C1_witness :
    (0 : ℤ) < 30 ∧ -jitterAmount 30 ≤ (3 : ℚ) ∧ (3 : ℚ) ≤ jitterAmount 30 ∧
    (max 10 ((8 / 10) * ((30 : ℤ) : ℚ)) ≤ effectiveDelay 30 true 3 ∧
     effectiveDelay 30 true 3 ≤ max 10 ((12 / 10) * ((30 : ℤ) : ℚ))) :=
  ⟨by norm_num, by norm_num [jitterAmount], by norm_num [jitterAmount],
   claim_C1 30 3 (by norm_num) (by norm_num [jitterAmount]) (by norm_num [jitterAmount])⟩

/-- Claim C1, refutation of the exact statement: at base interval `1` with
offset `0` (a legal draw, since the jitter bound is `0.2`), the effective
delay is the clamped value `10`, which exceeds the claimed upper bound
`1.2 * 1`. -/
theorem claim_C1_counterexample :
    (0 : ℤ) < 1 ∧ -jitterAmount 1 ≤ (0 : ℚ) ∧ (0 : ℚ) ≤ jitterAmount 1 ∧
    ¬ (effectiveDelay 1 true 0 ≤ (12 / 10) * ((1 : ℤ) : ℚ)) := by
  norm_num [effectiveDelay, jitterAmount]

/-- Claim C2: if the stop flag is set at poll `j` of the wait phase, the
wait performs at most `j` sleeps (the flag is re-checked before every
sleep, so no sleep at or after index `j` happens), and every sleep passed
to `time.sleep` lasts at most one second — so the wait ends within one
polling interval of the flag being set rather than after the full
remaining effective delay. -/
theorem claim_C2 (delay : ℚ) (stop : ℕ → Bool) (j : ℕ) (hj : stop j = true) :
    (∀ x ∈ waitSleeps delay stop 0, x ≤ 1) ∧ (waitSleeps delay stop 0).length ≤ j := by
  refine ⟨waitSleeps_le_one delay stop 0, ?_⟩
  have := waitSleeps_stop delay stop j hj 0 (Nat.zero_le j)
  omega

theorem claim_C2_witness :
    ((fun _ : ℕ => true) 2 = true) ∧
    ((∀ x ∈ waitSleeps 3 (fun _ : ℕ => true) 0, x ≤ 1) ∧
     (waitSleeps 3 (fun _ : ℕ => true) 0).length ≤ 2) :=
  ⟨rfl, claim_C2 3 (fun _ : ℕ => true) 2 rfl⟩

/-- Claim C3: whatever exception message the work phase raises, the loop
body catches it (no propagation), logs the `Error in loop: ...` line,
sleeps a backoff of at most five one-second waits, skips all remaining
backoff waits from the first check at which the stop flag is observed set,
and then returns to the `while` condition — a cycle's exception never
terminates the process. -/
theorem claim_C3 (e fileBefore : String) (delay : ℚ) (stop : ℕ → Bool) :
    (loopIter (Except.error e) fileBefore delay stop).continues = true ∧
    (loopIter (Except.error e) fileBefore delay stop).errorLogged =
      some ("Error in loop: " ++ e) ∧
    (loopIter (Except.error e) fileBefore delay stop).sleeps.length ≤ 5 ∧
    (∀ x ∈ (loopIter (Except.error e) fileBefore delay stop).sleeps, x = 1) ∧
    (∀ j, stop j = true →
      (loopIter (Except.error e) fileBefore delay stop).sleeps.length ≤ j) := by
  refine ⟨rfl, rfl, ?_, ?_, ?_⟩
  · exact backoffSleeps_length_le stop 5 0
  · exact backoffSleeps_all_one stop 5 0
  · intro j hj
    have := backoffSleeps_stop stop j hj 5 0 (Nat.zero_le j)
    simpa [loopIter] using this

theorem claim_C3_witness :
    (loopIter (Except.error "boom") "file" 60 (fun i : ℕ => decide (2 ≤ i))).continues = true ∧
    (loopIter (Except.error "boom") "file" 60 (fun i : ℕ => decide (2 ≤ i))).errorLogged =
      some ("Error in loop: " ++ "boom") ∧
    (loopIter (Except.error "boom") "file" 60 (fun i : ℕ => decide (2 ≤ i))).sleeps.length ≤ 5 ∧
    (∀ x ∈ (loopIter (Except.error "boom") "file" 60 (fun i : ℕ => decide (2 ≤ i))).sleeps, x = 1) ∧
    (∀ j, (fun i : ℕ => decide (2 ≤ i)) j = true →
      (loopIter (Except.error "boom") "file" 60 (fun i : ℕ => decide (2 ≤ i))).sleeps.length ≤ j) :=
  claim_C3 "boom" "file" 60 (fun i : ℕ => decide (2 ≤ i))

/-- Claim C4: whenever `git_stage_and_commit` reports no commit created
(which covers the "nothing to commit" non-zero exit of `git commit`), the
cycle records `committed = false`, attempts no push, raises nothing past
the cycle boundary, and the loop proceeds to the wait step. -/
theorem claim_C4 (pool : List String) (k : ℕ) (ts : String) (pre : Option String)
    (addOk commitOk pushOk pushFlag : Bool) (file : String) (delay : ℚ)
    (stop : ℕ → Bool) (entry : String)
    (hgen : generate_entry pool k ts pre = Except.ok entry)
    (hcommit : git_stage_and_commit addOk commitOk = false) :
    (loopIter (workPhase pool k ts pre addOk commitOk pushOk pushFlag file)
        file delay stop).committed = false ∧
    (loopIter (workPhase pool k ts pre addOk commitOk pushOk pushFlag file)
        file delay stop).pushAttempted = false ∧
    (loopIter (workPhase pool k ts pre addOk commitOk pushOk pushFlag file)
        file delay stop).pushed = none ∧
    (loopIter (workPhase pool k ts pre addOk commitOk pushOk pushFlag file)
        file delay stop).errorLogged = none ∧
    (loopIter (workPhase pool k ts pre addOk commitOk pushOk pushFlag file)
        file delay stop).continues = true ∧
    (loopIter (workPhase pool k ts pre addOk commitOk pushOk pushFlag file)
        file delay stop).sleeps = waitSleeps delay stop 0 := by
  unfold workPhase
  rw [hgen]
  simp [hcommit, loopIter]

theorem claim_C4_witness :
    generate_entry ["hello"] 0 "T" none = Except.ok "- hello\n" ∧
    git_stage_and_commit true false = false ∧
    (loopIter (workPhase ["hello"] 0 "T" none true false true true "F")
        "F" 7 (fun _ : ℕ => false)).committed = false ∧
    (loopIter (workPhase ["hello"] 0 "T" none true false true true "F")
        "F" 7 (fun _ : ℕ => false)).pushAttempted = false := by
  refine ⟨rfl, rfl, ?_, ?_⟩
  · exact (claim_C4 ["hello"] 0 "T" none true false true true "F" 7
      (fun _ : ℕ => false) "- hello\n" rfl rfl).1
  · exact (claim_C4 ["hello"] 0 "T" none true false true true "F" 7
      (fun _ : ℕ => false) "- hello\n" rfl rfl).2.1

/-- Claim C10: the template `fix (THE-BUG)` written with a brace
placeholder named `bug` is a usable custom pool entry (non-blank after
stripping), yet formatting it raises a KeyError for every timestamp and
prefix, so the cycle appends nothing and commits nothing, the loop-level
catch-all logs the exception, and the loop keeps running. -/
theorem claim_C10 (ts : String) (pre : Option String)
    (addOk commitOk pushOk pushFlag : Bool) (file : String) (delay : ℚ)
    (stop : ℕ → Bool) :
    loadTemplates (some (Except.ok ["fix \x7bbug\x7d"])) = (["fix \x7bbug\x7d"], false) ∧
    generate_entry ["fix \x7bbug\x7d"] 0 ts pre = Except.error "KeyError: bug" ∧
    (loopIter (workPhase ["fix \x7bbug\x7d"] 0 ts pre addOk commitOk pushOk pushFlag file)
        file delay stop).file = file ∧
    (loopIter (workPhase ["fix \x7bbug\x7d"] 0 ts pre addOk commitOk pushOk pushFlag file)
        file delay stop).committed = false ∧
    (loopIter (workPhase ["fix \x7bbug\x7d"] 0 ts pre addOk commitOk pushOk pushFlag file)
        file delay stop).pushAttempted = false ∧
    (loopIter (workPhase ["fix \x7bbug\x7d"] 0 ts pre addOk commitOk pushOk pushFlag file)
        file delay stop).errorLogged = some ("Error in loop: " ++ "KeyError: bug") ∧
    (loopIter (workPhase ["fix \x7bbug\x7d"] 0 ts pre addOk commitOk pushOk pushFlag file)
        file delay stop).continues = true := by
  refine ⟨rfl, rfl, ?_, ?_, ?_, ?_, ?_⟩ <;> rfl

theorem fmtGo_no_newline (ts : List Char) (hts : '\n' ∉ ts) :
    ∀ (cs : List Char) (m : FmtMode) (out : List Char),
      '\n' ∉ cs → fmtGo ts m cs = Except.ok out → '\n' ∉ out := by
  intro cs
  induction cs with
  | nil =>
      intro m out hcs h
      cases m with
      | normal =>
          simp only [fmtGo, Except.ok.injEq] at h
          rw [← h]
          exact List.not_mem_nil '\n'
      | afterL => simp [fmtGo] at h
      | afterR => simp [fmtGo] at h
      | inField acc => simp [fmtGo] at h
  | cons c rest ih =>
      intro m out hcs h
      have hc : c ≠ '\n' := fun he => hcs (he ▸ List.mem_cons_self c rest)
      have hrest : '\n' ∉ rest := fun hr => hcs (List.mem_cons_of_mem c hr)
      cases m with
      | normal =>
          rw [fmtGo] at h
          by_cases h1 : c = lbrace
          · rw [if_pos h1] at h
            exact ih FmtMode.afterL out hrest h
          · rw [if_neg h1] at h
            by_cases h2 : c = rbrace
            · rw [if_pos h2] at h
              exact ih FmtMode.afterR out hrest h
            · rw [if_neg h2] at h
              cases hr : fmtGo ts FmtMode.normal rest with
              | error e => rw [hr] at h; simp [Except.map] at h
              | ok r =>
                  rw [hr] at h
                  simp only [Except.map, Except.ok.injEq] at h
                  rw [← h]
                  intro hmem
                  rcases List.mem_cons.mp hmem with he | hm
                  · exact hc he.symm
                  · exact ih FmtMode.normal r hrest hr hm
      | afterL =>
          rw [fmtGo] at h
          by_cases h1 : c = lbrace
          · rw [if_pos h1] at h
            cases hr : fmtGo ts FmtMode.normal rest with
            | error e => rw [hr] at h; simp [Except.map] at h
            | ok r =>
                rw [hr] at h
                simp only [Except.map, Except.ok.injEq] at h
                rw [← h]
                intro hmem
                rcases List.mem_cons.mp hmem with he | hm
                · exact absurd he (by decide)
                · exact ih FmtMode.normal r hrest hr hm
          · rw [if_neg h1] at h
            by_cases h2 : c = rbrace
            · rw [if_pos h2] at h; exact absurd h (by simp)
            · rw [if_neg h2] at h
              exact ih (FmtMode.inField [c]) out hrest h
      | afterR =>
          rw [fmtGo] at h
          by_cases h1 : c = rbrace
          · rw [if_pos h1] at h
            cases hr : fmtGo ts FmtMode.normal rest with
            | error e => rw [hr] at h; simp [Except.map] at h
            | ok r =>
                rw [hr] at h
                simp only [Except.map, Except.ok.injEq] at h
                rw [← h]
                intro hmem
                rcases List.mem_cons.mp hmem with he | hm
                · exact absurd he (by decide)
                · exact ih FmtMode.normal r hrest hr hm
          · rw [if_neg h1] at h; exact absurd h (by simp)
      | inField acc =>
          rw [fmtGo] at h
          by_cases h1 : c = rbrace
          · rw [if_pos h1] at h
            by_cases h2 : acc.reverse = ['t', 's']
            · rw [if_pos h2] at h
              cases hr : fmtGo ts FmtMode.normal rest with
              | error e => rw [hr] at h; simp [Except.map] at h
              | ok r =>
                  rw [hr] at h
                  simp only [Except.map, Except.ok.injEq] at h
                  rw [← h]
                  intro hmem
                  rcases List.mem_append.mp hmem with hm | hm
                  · exact hts hm
                  · exact ih FmtMode.normal r hrest hr hm
            · rw [if_neg h2] at h; exact absurd h (by simp)
          · rw [if_neg h1] at h
            exact ih (FmtMode.inField (c :: acc)) out hrest h

theorem endsWithOneNewline_append_newline (s : String)
    (h : s.toList.reverse.head? ≠ some '\n') :
    endsWithOneNewline (s ++ "\n") = true := by
  unfold endsWithOneNewline
  have h1 : (s ++ "\n").toList = s.toList ++ ['\n'] := rfl
  rw [h1, List.reverse_append]
  cases hl : s.toList.reverse with
  | nil => rfl
  | cons d dr =>
      rw [hl] at h
      have hd : d ≠ '\n' := by intro he; exact h (by simp [he])
      simp [hd]

theorem rev_head_append (X line : String) (hX : X.toList.reverse.head? = some ' ')
    (hline : '\n' ∉ line.toList) :
    (X ++ line).toList.reverse.head? ≠ some '\n' := by
  have h1 : (X ++ line).toList = X.toList ++ line.toList := rfl
  rw [h1, List.reverse_append]
  cases hl : line.toList.reverse with
  | nil =>
      simp only [List.nil_append]
      rw [hX]
      simp
  | cons d dr =>
      have hd : d ∈ line.toList := by
        rw [← List.mem_reverse, hl]
        exact List.mem_cons_self d dr
      have : d ≠ '\n' := fun he => hline (he ▸ hd)
      simp [this]

/-- Claim C5 (amended): for every template pool whose templates contain no
newline character and every timestamp containing no newline character —
which holds for the built-in defaults and for every pool loaded from a
file, since loaded lines are stripped — a successfully generated entry
ends in exactly one trailing newline.  (The claim fails for templates that
themselves end in a newline; see the counterexample.) -/
theorem claim_C5 (pool : List String) (k : ℕ) (ts : String) (pre : Option String)
    (entry : String)
    (hpool : ∀ t ∈ pool, '\n' ∉ t.toList) (hts : '\n' ∉ ts.toList)
    (hgen : generate_entry pool k ts pre = Except.ok entry) :
    endsWithOneNewline entry = true := by
  unfold generate_entry at hgen
  split at hgen
  case h_1 => exact absurd hgen (by simp)
  case h_2 templ hp =>
      have htempl : '\n' ∉ templ.toList := hpool templ (List.getElem?_mem hp)
      cases hf : pyFormat templ ts with
      | error e => rw [hf] at hgen; simp [Except.map] at hgen
      | ok line =>
          rw [hf] at hgen
          simp only [Except.map, Except.ok.injEq] at hgen
          have hline : '\n' ∉ line.toList := by
            unfold pyFormat at hf
            cases hg : fmtGo ts.toList FmtMode.normal templ.toList with
            | error e2 => rw [hg] at hf; simp [Except.map] at hf
            | ok outcs =>
                rw [hg] at hf
                simp only [Except.map, Except.ok.injEq] at hf
                rw [← hf]
                exact fmtGo_no_newline ts.toList hts templ.toList FmtMode.normal outcs htempl hg
          rw [← hgen]
          cases pre with
          | none =>
              exact endsWithOneNewline_append_newline ("- " ++ line)
                (rev_head_append "- " line rfl hline)
          | some p =>
              by_cases hp2 : p ≠ ""
              · simp only [if_pos hp2]
                refine endsWithOneNewline_append_newline (p ++ " " ++ line)
                  (rev_head_append (p ++ " ") line ?_ hline)
                have : (p ++ " ").toList = p.toList ++ [' '] := rfl
                rw [this, List.reverse_append]
                rfl
              · simp only [if_neg hp2]
                exact endsWithOneNewline_append_newline ("- " ++ line)
                  (rev_head_append "- " line rfl hline)

theorem claim_C5_witness :
    (∀ t ∈ ["hello (\x7bts\x7d)"], '\n' ∉ t.toList) ∧
    ('\n' ∉ ("2025-01-01T00:00:00Z" : String).toList) ∧
    generate_entry ["hello (\x7bts\x7d)"] 0 "2025-01-01T00:00:00Z" none =
      Except.ok "- hello (2025-01-01T00:00:00Z)\n" ∧
    endsWithOneNewline "- hello (2025-01-01T00:00:00Z)\n" = true :=
  ⟨by decide, by decide, rfl,
   claim_C5 ["hello (\x7bts\x7d)"] 0 "2025-01-01T00:00:00Z" none
     "- hello (2025-01-01T00:00:00Z)\n" (by decide) (by decide) rfl⟩

/-- Claim C5, refutation of the exact statement: for the pool holding the
single template `abc` followed by a newline character, the generated entry
ends in two newline characters, and `append_entry` writes it verbatim. -/
theorem claim_C5_counterexample :
    generate_entry ["abc\n"] 0 "T" none = Except.ok "- abc\n\n" ∧
    endsWithOneNewline "- abc\n\n" = false ∧
    append_entry "F" "- abc\n\n" = "F" ++ "- abc\n\n" :=
  ⟨rfl, rfl, rfl⟩

/-- Claim C6 (code bug): the parser has no no-push flag.  Line 101
registers the single literal option string joining both spellings with a
slash, so `--no-push` matches no registered option string — neither
exactly nor as an abbreviation — and `argparse` rejects it with a usage
error instead of disabling the push step, although the module docstring
advertises `--no-push`.  The one push-related option string that does
exist takes a value (plain `store` action), and the default is push
enabled. -/
theorem claim_C6 :
    longOptionMatches "--no-push" = [] ∧
    optionStrings.contains "--push/--no-push" = true ∧
    takesValue "--push/--no-push" = true ∧
    defaultConfig.push = true := by
  refine ⟨by decide, by decide, by decide, rfl⟩

/-- Claim C7 (amended): the parser default for the base interval (3600) is
strictly positive, but nothing validates positivity: startup validation
succeeds for every integer interval — including zero and negative values,
which `type=int` accepts — whenever the git checks succeed, so the loop
can run with a non-positive base interval. -/
theorem claim_C7 :
    0 < defaultConfig.interval ∧
    (∀ (n : ℤ) (cfg : Config),
      startupValidate { cfg with interval := n } true true true =
        Except.ok { cfg with interval := n }) := by
  constructor
  · norm_num [defaultConfig]
  · intro n cfg
    simp only [startupValidate]
    cases hb : ({ cfg with interval := n } : Config).branch with
    | none => simp
    | some b => simp

/-- Claim C7, refutation of the exact statement: the command line value
`"0"` parses (`int("0")` succeeds), the resulting configuration passes
every startup check, and its base interval is not strictly positive, so
the loop runs under a configuration violating the claimed invariant. -/
theorem claim_C7_counterexample :
    parseIntervalValue "0" = some 0 ∧
    startupValidate { defaultConfig with interval := 0 } true true true =
      Except.ok { defaultConfig with interval := 0 } ∧
    ¬ (0 < ({ defaultConfig with interval := 0 } : Config).interval) := by
  refine ⟨rfl, rfl, by norm_num⟩

/-- Claim C8 (amended): the template pool in use is never empty and the
fallback to the default pool is never fatal; an unreadable custom source
falls back to the default pool with the warning printed, but a source that
loads successfully with zero usable (non-blank) lines falls back to the
default pool silently — no warning is emitted in that case. -/
theorem claim_C8 :
    (∀ tf, (loadTemplates tf).1 ≠ []) ∧
    (∀ err, loadTemplates (some (Except.error err)) = (DEFAULT_TEMPLATES, true)) ∧
    (∀ raw, ((raw.map pyStrip).filter (fun l => l ≠ "")) = [] →
      loadTemplates (some (Except.ok raw)) = (DEFAULT_TEMPLATES, false)) := by
  refine ⟨?_, ?_, ?_⟩
  · intro tf
    match tf with
    | none => simp [loadTemplates, DEFAULT_TEMPLATES]
    | some (Except.error e) => simp [loadTemplates, DEFAULT_TEMPLATES]
    | some (Except.ok raw) =>
        rw [loadTemplates]
        dsimp only
        by_cases h : ((raw.map pyStrip).filter (fun l => l ≠ "")) = []
        · rw [if_neg (fun hc => hc h)]
          simp [DEFAULT_TEMPLATES]
        · rw [if_pos h]
          exact h
  · intro err; rfl
  · intro raw h
    rw [loadTemplates, if_neg (fun hc => hc h)]

theorem claim_C8_witness :
    ((((["", "   "] : List String).map pyStrip).filter (fun l => l ≠ "")) = []) ∧
    loadTemplates (some (Except.ok ["", "   "])) = (DEFAULT_TEMPLATES, false) :=
  ⟨by decide, claim_C8.2.2 ["", "   "] (by decide)⟩

/-- Claim C8, refutation of the exact statement: a readable custom source
whose lines are all blank resolves to the default pool with the warning
flag `false` — the claimed warning is not emitted in the empty-yield
case. -/
theorem claim_C8_counterexample :
    (loadTemplates (some (Except.ok ["", "   "]))).1 = DEFAULT_TEMPLATES ∧
    (loadTemplates (some (Except.ok ["", "   "]))).2 = false :=
  ⟨rfl, rfl⟩

theorem pyFormat_no_newline (templ ts line : String)
    (htempl : '\n' ∉ templ.toList) (hts : '\n' ∉ ts.toList)
    (hf : pyFormat templ ts = Except.ok line) : '\n' ∉ line.toList := by
  unfold pyFormat at hf
  cases hg : fmtGo ts.toList FmtMode.normal templ.toList with
  | error e => rw [hg] at hf; simp [Except.map] at hf
  | ok outcs =>
      rw [hg] at hf
      simp only [Except.map, Except.ok.injEq] at hf
      rw [← hf]
      exact fmtGo_no_newline ts.toList hts templ.toList FmtMode.normal outcs htempl hg

theorem generate_entry_shape (pool : List String) (k : ℕ) (ts : String)
    (pre : Option String) (entry : String)
    (hgen : generate_entry pool k ts pre = Except.ok entry) :
    ∃ templ line, pool[k]? = some templ ∧ pyFormat templ ts = Except.ok line ∧
      (entry = "- " ++ line ++ "\n" ∨
       ∃ p, pre = some p ∧ p ≠ "" ∧ entry = p ++ " " ++ line ++ "\n") := by
  unfold generate_entry at hgen
  split at hgen
  case h_1 => exact absurd hgen (by simp)
  case h_2 templ hp =>
      cases hf : pyFormat templ ts with
      | error e => rw [hf] at hgen; simp [Except.map] at hgen
      | ok line =>
          rw [hf] at hgen
          simp only [Except.map, Except.ok.injEq] at hgen
          refine ⟨templ, line, hp, hf, ?_⟩
          cases pre with
          | none => exact Or.inl hgen.symm
          | some p =>
              rw [← hgen]
              by_cases hp2 : p ≠ ""
              · refine Or.inr ⟨p, rfl, hp2, ?_⟩
                show (if p ≠ "" then p ++ " " ++ line ++ "\n" else "- " ++ line ++ "\n") =
                  p ++ " " ++ line ++ "\n"
                exact if_pos hp2
              · refine Or.inl ?_
                show (if p ≠ "" then p ++ " " ++ line ++ "\n" else "- " ++ line ++ "\n") =
                  "- " ++ line ++ "\n"
                exact if_neg hp2

/-- Claim C9: a missing target file is created holding exactly the fixed
header — two non-blank header lines, the first being the title line, with
the content ending in a blank line — while an existing file is left
untouched; and each successfully generated entry is appended (never
rewriting the existing content, which stays a prefix) as exactly one
newline-terminated line, with the post-append file content the same
whatever the commit/push outcomes are. -/
theorem claim_C9 (pool : List String) (k : ℕ) (ts : String) (pre : Option String)
    (entry file : String) (addOk commitOk pushOk pushFlag : Bool)
    (hpool : ∀ t ∈ pool, '\n' ∉ t.toList) (hts : '\n' ∉ ts.toList)
    (hpre : ∀ p, pre = some p → '\n' ∉ p.toList)
    (hgen : generate_entry pool k ts pre = Except.ok entry) :
    (∀ c, initTargetFile false c = HEADER) ∧
    ((HEADER.toList.splitOn '\n').filter (fun l => l ≠ [])).length = 2 ∧
    (HEADER.toList.splitOn '\n').head? = some ("# Micro updates".toList) ∧
    HEADER.toList.reverse.take 2 = ['\n', '\n'] ∧
    (∀ c, initTargetFile true c = c) ∧
    append_entry file entry = file ++ entry ∧
    entry.toList.count '\n' = 1 ∧
    (∀ w, workPhase pool k ts pre addOk commitOk pushOk pushFlag file = Except.ok w →
        w.file = file ++ entry) ∧
    file.toList <+: (append_entry file entry).toList := by
  obtain ⟨templ, line, hp, hf, hcase⟩ := generate_entry_shape pool k ts pre entry hgen
  have htempl : '\n' ∉ templ.toList := hpool templ (List.getElem?_mem hp)
  have hline : '\n' ∉ line.toList := pyFormat_no_newline templ ts line htempl hts hf
  have hlast : entry.toList.getLast? = some '\n' := by
    rcases hcase with he | ⟨p, hpe, hne, he⟩
    · rw [he]
      have h2 : ("- " ++ line ++ "\n").toList = ("- " ++ line).toList ++ ['\n'] := rfl
      rw [h2, List.getLast?_concat]
    · rw [he]
      have h2 : (p ++ " " ++ line ++ "\n").toList = (p ++ " " ++ line).toList ++ ['\n'] := rfl
      rw [h2, List.getLast?_concat]
  have happend : append_entry file entry = file ++ entry := by
    unfold append_entry
    rw [if_pos hlast]
  have hcount : entry.toList.count '\n' = 1 := by
    rcases hcase with he | ⟨p, hpe, hne, he⟩
    · rw [he]
      have h2 : ("- " ++ line ++ "\n").toList = "- ".toList ++ line.toList ++ ['\n'] := rfl
      rw [h2, List.count_append, List.count_append]
      rw [List.count_eq_zero.mpr hline]
      decide
    · rw [he]
      have h2 : (p ++ " " ++ line ++ "\n").toList =
          (p.toList ++ [' ']) ++ line.toList ++ ['\n'] := rfl
      rw [h2, List.count_append, List.count_append, List.count_append]
      rw [List.count_eq_zero.mpr hline, List.count_eq_zero.mpr (hpre p hpe)]
      decide
  refine ⟨fun c => rfl, by decide, by decide, by decide, fun c => rfl, happend, hcount,
    ?_, ?_⟩
  · intro w hw
    unfold workPhase at hw
    rw [hgen] at hw
    dsimp only at hw
    split at hw
    · split at hw
      · injection hw with h
        rw [← h]
        exact happend
      · injection hw with h
        rw [← h]
        exact happend
    · injection hw with h
      rw [← h]
      exact happend
  · rw [happend]
    exact List.prefix_append file.toList entry.toList

theorem claim_C9_witness :
    (∀ t ∈ ["note (\x7bts\x7d)"], '\n' ∉ t.toList) ∧
    ('\n' ∉ ("T" : String).toList) ∧
    generate_entry ["note (\x7bts\x7d)"] 0 "T" none = Except.ok "- note (T)\n" ∧
    ((∀ c, initTargetFile false c = HEADER) ∧
     ((HEADER.toList.splitOn '\n').filter (fun l => l ≠ [])).length = 2 ∧
     (HEADER.toList.splitOn '\n').head? = some ("# Micro updates".toList) ∧
     HEADER.toList.reverse.take 2 = ['\n', '\n'] ∧
     (∀ c, initTargetFile true c = c) ∧
     append_entry "X" "- note (T)\n" = "X" ++ "- note (T)\n" ∧
     ("- note (T)\n" : String).toList.count '\n' = 1 ∧
     (∀ w, workPhase ["note (\x7bts\x7d)"] 0 "T" none true false true true "X" =
         Except.ok w → w.file = "X" ++ "- note (T)\n") ∧
     ("X" : String).toList <+: (append_entry "X" "- note (T)\n").toList) :=
  ⟨by decide, by decide, rfl,
   claim_C9 ["note (\x7bts\x7d)"] 0 "T" none "- note (T)\n" "X" true false true true
     (by decide) (by decide) (fun p h => Option.noConfusion h) rfl⟩
